import Mathlib

/-!
Verification of the Carnevale card-text parsing and validation engine.

Strings are modelled as `List Char`.  The Python functions of
`src/parse_cards.py` and `src/card_parser/test_validation.py` are embedded
as executable Lean functions; regular expressions appearing in the source
are compiled by hand into equivalent scanning functions (each jump from a
Python regex to a Lean scanner is documented at the definition that makes
it).
-/

/-- Python whitespace class for ASCII text: the characters matched by
the regex class backslash-s and removed by `str.strip`. -/
def pyIsSpace (c : Char) : Bool :=
  c = ' ' || c = '\t' || c = '\n' || c = '\r' || c = '\x0b' || c = '\x0c'

/-- Python `str.strip()`: drop whitespace from both ends. -/
def pyStrip (l : List Char) : List Char :=
  ((l.dropWhile pyIsSpace).reverse.dropWhile pyIsSpace).reverse

/-- The substitution `re.sub(r"\s+", " ", s)`: every maximal nonempty run
of whitespace characters is replaced by a single space.  A whitespace
character followed by another whitespace character is dropped; the last
character of a run becomes a single space. -/
def collapseWS : List Char → List Char
  | [] => []
  | [ c ] => if pyIsSpace c then [ ' ' ] else [ c ]
  | c :: d :: rest =>
    if pyIsSpace c then
      (if pyIsSpace d then collapseWS (d :: rest) else ' ' :: collapseWS (d :: rest))
    else c :: collapseWS (d :: rest)

/-- The function `normalize_description` from `src/parse_cards.py` lines 20-22:
`re.sub(r"\s+", " ", description).strip()`. -/
def normalize_description (description : List Char) : List Char :=
  pyStrip (collapseWS description)

/-- Output predicate: the first character (if any) is not whitespace. -/
def noLeadWS : List Char → Bool
  | [] => true
  | c :: _ => !pyIsSpace c

/-- Output predicate: the last character (if any) is not whitespace. -/
def noTrailWS (l : List Char) : Bool := noLeadWS l.reverse

/-- Output predicate: no two consecutive whitespace characters. -/
def noDoubleWS : List Char → Bool
  | c :: d :: rest => (!(pyIsSpace c && pyIsSpace d)) && noDoubleWS (d :: rest)
  | _ => true

/-- Every whitespace character of the list is a plain space. -/
def wsCanon (l : List Char) : Bool :=
  l.all (fun c => !pyIsSpace c || c = ' ')

/-- First occurrence of `pat` as a contiguous sublist: returns the part
before the occurrence and the part after it (Python `str.find` plus
slicing). -/
def splitAtSub? (pat : List Char) : List Char → Option (List Char × List Char)
  | [] => if pat.isEmpty then some ([], []) else none
  | c :: t =>
    if pat.isPrefixOf (c :: t) then some ([], (c :: t).drop pat.length)
    else
      match splitAtSub? pat t with
      | some (b, a) => some (c :: b, a)
      | none => none

/-- Python `s.replace(old, new, 1)`: replace the first occurrence only. -/
def replaceFirst (pat repl l : List Char) : List Char :=
  match splitAtSub? pat l with
  | some (b, a) => b ++ repl ++ a
  | none => l

/-- Python `s.replace(old, new)` for a nonempty `old`: replace all
non-overlapping occurrences, scanning left to right.  The fuel is the
length of the text: every step consumes at least one character. -/
def replaceAllAux (pat repl : List Char) : Nat → List Char → List Char
  | _, [] => []
  | 0, l => l
  | fuel + 1, c :: t =>
    if pat ≠ [] ∧ pat.isPrefixOf (c :: t) then
      repl ++ replaceAllAux pat repl fuel ((c :: t).drop pat.length)
    else
      c :: replaceAllAux pat repl fuel t

/-- Python `s.replace(old, new)` for a nonempty `old`. -/
def replaceAll (pat repl l : List Char) : List Char :=
  replaceAllAux pat repl l.length l

/-- Python substring containment `pat in l`. -/
def containsList (pat : List Char) : List Char → Bool
  | [] => pat.isEmpty
  | c :: t => pat.isPrefixOf (c :: t) || containsList pat t

/-- One insertion step of a stable descending-length sort. -/
def insertByLenDesc (x : List Char) : List (List Char) → List (List Char)
  | [] => [ x ]
  | y :: ys => if x.length < y.length then y :: insertByLenDesc x ys else x :: y :: ys

/-- Python `sorted(known_abilities, key=len, reverse=True)`: stable sort by
descending length (elements of equal length keep their original order). -/
def sortLenDesc : List (List Char) → List (List Char)
  | [] => []
  | x :: xs => insertByLenDesc x (sortLenDesc xs)

/-- Scanner for the regex `re.escape(base) \(\d+\)` at the head of `l`:
the literal `base`, a space, an opening parenthesis, one or more digits
(greedy, hence maximal and followed by the closing parenthesis), and the
closing parenthesis.  Returns the matched text. -/
def numTailMatch (base : List Char) (l : List Char) : Option (List Char) :=
  if base.isPrefixOf l then
    match l.drop base.length with
    | ' ' :: '(' :: r2 =>
      let d := r2.takeWhile Char.isDigit
      if !d.isEmpty && (r2.drop d.length).head? = some ')' then
        some (base ++ ' ' :: '(' :: (d ++ [ ')' ]))
      else none
    | _ => none
  else none

/-- The search `re.search` of the number pattern: leftmost position where
`numTailMatch` succeeds. -/
def searchNum (base : List Char) : List Char → Option (List Char)
  | [] => none
  | c :: t =>
    match numTailMatch base (c :: t) with
    | some g => some g
    | none => searchNum base t

/-- Scanner for the regex `re.escape(base) \([^)]+\)` at the head of `l`:
the literal `base`, a space, an opening parenthesis, one or more
non-closing-parenthesis characters, and the closing parenthesis. -/
def parenTailMatch (base : List Char) (l : List Char) : Option (List Char) :=
  if base.isPrefixOf l then
    match l.drop base.length with
    | ' ' :: '(' :: r2 =>
      let d := r2.takeWhile (fun c => c ≠ ')')
      if !d.isEmpty && (r2.drop d.length).head? = some ')' then
        some (base ++ ' ' :: '(' :: (d ++ [ ')' ]))
      else none
    | _ => none
  else none

/-- The search `re.search` of the parenthesis pattern: leftmost match. -/
def searchParen (base : List Char) : List Char → Option (List Char)
  | [] => none
  | c :: t =>
    match parenTailMatch base (c :: t) with
    | some g => some g
    | none => searchParen base t

/-- One iteration of the loop of `separate_concatenated_abilities`
(`src/parse_cards.py` lines 60-90) for the known ability `known` over the
state `(separated, remaining_text)`. -/
def segStep (st : List (List Char) × List Char) (known : List Char) :
    List (List Char) × List Char :=
  let base := pyStrip (replaceAll (String.toList "(X)") [] known)
  match searchNum base st.2 with
  | some g => (st.1 ++ [ g ], pyStrip (replaceFirst g [] st.2))
  | none =>
    let afterParen :=
      if containsList (String.toList "(X)") known then
        searchParen base st.2
      else none
    match afterParen with
    | some g => (st.1 ++ [ g ], pyStrip (replaceFirst g [] st.2))
    | none =>
      if base.isPrefixOf st.2 then
        let n := base.length
        if n ≥ st.2.length || !(st.2.getD n ' ').isAlpha || (st.2.getD n ' ').isUpper then
          (st.1 ++ [ base ], pyStrip (st.2.drop n))
        else st
      else st

/-- The loop of `separate_concatenated_abilities` over an already sorted
reference list. -/
def segFold (item : List Char) (sortedKnown : List (List Char)) :
    List (List Char) × List Char :=
  sortedKnown.foldl segStep ([], item)

/-- The function `separate_concatenated_abilities` from `src/parse_cards.py` lines
52-96: sort the reference by descending length, extract number matches,
parametric parenthesis matches and leading base names in reference order,
then append any leftover text; fall back to `[item]` when nothing was
separated. -/
def separate_concatenated_abilities (item : List Char) (known_abilities : List (List Char)) :
    List (List Char) :=
  let st := segFold item (sortLenDesc known_abilities)
  let separated := if st.2.isEmpty then st.1 else st.1 ++ [ st.2 ]
  if separated.isEmpty then [ item ] else separated

/-- The four stat fields assigned by the fused-digit decoding of
`parse_card_enhanced`. -/
structure StatDecode where
  actions : Nat
  life : Nat
  will : Nat
  command : Option Nat
deriving DecidableEq, Repr

/-- Value of a digit string, as Python `int` of the corresponding slice. -/
def digitsVal (l : List Nat) : Nat := l.foldl (fun a d => 10 * a + d) 0

/-- The stat-block decoding of `parse_card_enhanced`
(`src/parse_cards.py` lines 483-521, identical in
`parse_card_universal`, `src/card_parser/parse_all_factions.py` lines
366-395), factored over the fused digit string and the two header flags.
Returns `none` when neither branch of the source assigns any stat field
(command header present but fewer than four digits, or no command header
and fewer than two digits). -/
def statDecode (s : List Nat) (hasCommand hasWill : Bool) : Option StatDecode :=
  if hasCommand && decide (4 ≤ s.length) then
    some
      { actions := s.getD 0 0
        life :=
          if hasWill && decide (3 ≤ s.length) then
            (if 3 < s.length then digitsVal ((s.drop 1).dropLast.dropLast) else 0)
          else digitsVal ((s.drop 1).dropLast)
        will := if hasWill && decide (3 ≤ s.length) then s.getD (s.length - 2) 0 else 0
        command := some (s.getLastD 0) }
  else if (!hasCommand) && decide (2 ≤ s.length) then
    some
      { actions := s.getD 0 0
        life :=
          if hasWill && decide (3 ≤ s.length) then digitsVal ((s.drop 1).dropLast)
          else digitsVal (s.drop 1)
        will := if hasWill && decide (3 ≤ s.length) then s.getLastD 0 else 0
        command := none }
  else none

/-- The characters escaped by Python 3.7+ `re.escape` (the special set
of the `re` module). -/
def pyRegexSpecial (c : Char) : Bool :=
  c = '(' || c = ')' || c = '[' || c = ']' || c = '\x7b' || c = '\x7d' ||
  c = '?' || c = '*' || c = '+' || c = '-' || c = '|' || c = '^' || c = '$' ||
  c = '\\' || c = '.' || c = '&' || c = '~' || c = '#' || c = ' ' ||
  c = '\t' || c = '\n' || c = '\r' || c = '\x0b' || c = '\x0c'

/-- Python `re.escape`: prefix every special character with a backslash. -/
def pyEscape : List Char → List Char
  | [] => []
  | c :: t => if pyRegexSpecial c then '\\' :: c :: pyEscape t else c :: pyEscape t

/-- Atoms of the small regex fragment used by `normalize_ability_name`:
literal characters, the whitespace class, the class of
non-closing-parenthesis characters, and the two anchors. -/
inductive RAtom where
  | lit : Char → RAtom
  | wsClass : RAtom
  | notParen : RAtom
  | startAnchor : RAtom
  | endAnchor : RAtom
deriving DecidableEq, Repr

/-- A regex piece: an atom, possibly starred or plused. -/
inductive RPiece where
  | once : RAtom → RPiece
  | star : RAtom → RPiece
  | plus : RAtom → RPiece
deriving DecidableEq, Repr

/-- Attach a following star or plus quantifier to an atom. -/
def applyQuant (a : RAtom) : List Char → RPiece × List Char
  | '*' :: r => (RPiece.star a, r)
  | '+' :: r => (RPiece.plus a, r)
  | r => (RPiece.once a, r)

/-- Tokenizer for the pattern strings built by `normalize_ability_name`:
backslash escapes (with backslash-s as the whitespace class), the
character class of non-closing-parenthesis characters, anchors, literals,
and star or plus quantifiers.  Fuel-driven; the fuel is the pattern
length, and every step consumes at least one character. -/
def tokenizeAux : Nat → List Char → List RPiece
  | 0, _ => []
  | _, [] => []
  | fuel + 1, '\\' :: c :: rest =>
    let a := if c = 's' then RAtom.wsClass else RAtom.lit c
    let pr := applyQuant a rest
    pr.1 :: tokenizeAux fuel pr.2
  | _ + 1, '\\' :: [] => []
  | fuel + 1, '[' :: '^' :: ')' :: ']' :: rest =>
    let pr := applyQuant RAtom.notParen rest
    pr.1 :: tokenizeAux fuel pr.2
  | fuel + 1, '^' :: rest => RPiece.once RAtom.startAnchor :: tokenizeAux fuel rest
  | fuel + 1, '$' :: rest => RPiece.once RAtom.endAnchor :: tokenizeAux fuel rest
  | fuel + 1, c :: rest =>
    let pr := applyQuant (RAtom.lit c) rest
    pr.1 :: tokenizeAux fuel pr.2

/-- Tokenize a full pattern string. -/
def tokenizeRx (l : List Char) : List RPiece := tokenizeAux l.length l

/-- Whether an atom matches one character. -/
def atomMatch : RAtom → Char → Bool
  | RAtom.lit c, d => c = d
  | RAtom.wsClass, d => pyIsSpace d
  | RAtom.notParen, d => d ≠ ')'
  | RAtom.startAnchor, _ => false
  | RAtom.endAnchor, _ => false

/-- Backtracking matcher: whether the piece list matches a prefix of the
text, anchored at the start (the semantics of a successful `re.match`).
Fuel-driven; every recursive call strictly decreases the sum of the
piece-list and text lengths, so fuel above that sum never runs out. -/
def rmatchAux : Nat → List RPiece → List Char → Bool
  | 0, _, _ => false
  | _, [], _ => true
  | fuel + 1, RPiece.once RAtom.startAnchor :: ps, s => rmatchAux fuel ps s
  | fuel + 1, RPiece.once RAtom.endAnchor :: ps, s => s.isEmpty && rmatchAux fuel ps s
  | _ + 1, RPiece.once _ :: _, [] => false
  | fuel + 1, RPiece.once a :: ps, c :: t => atomMatch a c && rmatchAux fuel ps t
  | fuel + 1, RPiece.star _ :: ps, [] => rmatchAux fuel ps []
  | fuel + 1, RPiece.star a :: ps, c :: t =>
    rmatchAux fuel ps (c :: t) || (atomMatch a c && rmatchAux fuel (RPiece.star a :: ps) t)
  | _ + 1, RPiece.plus _ :: _, [] => false
  | fuel + 1, RPiece.plus a :: ps, c :: t =>
    atomMatch a c && rmatchAux fuel (RPiece.star a :: ps) t

/-- Matcher entry point with sufficient fuel. -/
def rmatch (ps : List RPiece) (s : List Char) : Bool :=
  rmatchAux (ps.length + s.length + 1) ps s

/-- The pattern built by rule (b) of `normalize_ability_name`
(`src/parse_cards.py` line 38): a caret, then
`re.escape(known.replace("(X)", "")).strip()` (note: the strip is applied
to the escaped text, so an escaped trailing space leaves a dangling
backslash in the pattern), then the literal pattern text
backslash-s-star, escaped opening parenthesis, the class of one or more
non-closing-parenthesis characters, escaped closing parenthesis, dollar. -/
def paramPattern (known : List Char) : List RPiece :=
  tokenizeRx
    ('^' :: pyStrip (pyEscape (replaceAll (String.toList "(X)") [] known)) ++
      String.toList "\\s*\\([^)]+\\)$")

/-- Rule (c) base name of `normalize_ability_name` (line 43):
`known.replace("(X)", "").replace("(", "").replace(")", "").strip()`. -/
def fuzzyBase (known : List Char) : List Char :=
  pyStrip
    (replaceAll [ ')' ] []
      (replaceAll [ '(' ] []
        (replaceAll (String.toList "(X)") [] known)))

/-- The fuzzy-containment loop of `normalize_ability_name` (lines 42-48):
first entry whose base name equals the candidate (returning the base) or
is contained in the candidate (returning the candidate). -/
def fuzzyRule (known_abilities : List (List Char)) (t : List Char) : Option (List Char) :=
  known_abilities.findSome? fun k =>
    let b := fuzzyBase k
    if t = b then some b
    else if containsList b t then some t
    else none

/-- The function `normalize_ability_name` from `src/parse_cards.py` lines 24-50:
exact membership, then the parametric-pattern rule, then fuzzy
containment; empty string when no rule fires. -/
def normalize_ability_name (ability_name : List Char) (known_abilities : List (List Char)) :
    List Char :=
  let t := pyStrip ability_name
  if known_abilities.contains t then t
  else if known_abilities.any
      (fun k => containsList (String.toList "(X)") k && rmatch (paramPattern k) t) then t
  else
    match fuzzyRule known_abilities t with
    | some r => r
    | none => []

/-- The six capture groups of the weapon-row regex of `parse_weapons`
(`src/parse_cards.py` line 364). -/
structure WGroups where
  g1 : List Char
  g2 : Option (List Char)
  g3 : Option (List Char)
  g4 : Option (List Char)
  g5 : Option (List Char)
  g6 : List Char
deriving DecidableEq, Repr

/-- Greatest index `i` with `1 ≤ i < qf.length` whose character is
whitespace.  This is where the greedy group `([^"]+)` followed by `\s+`
ends: the name group takes the longest quote-free prefix that is followed
by a whitespace character (everything after the following whitespace run
is matched by the optional groups and the lazy tail, which always
succeed). -/
def lastWsIdx (qf : List Char) : Option Nat :=
  (List.range qf.length).reverse.find? fun i =>
    decide (1 ≤ i) && pyIsSpace (qf.getD i ' ')

/-- Maximal digit run at the head. -/
def takeDigits (l : List Char) : List Char := l.takeWhile Char.isDigit

/-- Skip a whitespace run (the regex `\s*`, or the tail of `\s+`). -/
def skipWs (l : List Char) : List Char := l.dropWhile pyIsSpace

/-- The optional group `(\d+"|-)?` at the current position: a nonempty
digit run directly followed by an inch mark, or a single dash.  Returns
the captured text and the rest. -/
def groupRange (l : List Char) : Option (List Char × List Char) :=
  let d := takeDigits l
  if !d.isEmpty && (l.drop d.length).head? = some '"' then
    some (d ++ [ '"' ], l.drop (d.length + 1))
  else
    match l with
    | '-' :: t => some ([ '-' ], t)
    | _ => none

/-- The optional group `([+-]?\d+|-)?` at the current position: an
optional sign followed by a nonempty digit run, or a single dash. -/
def groupSigned (l : List Char) : Option (List Char × List Char) :=
  match l with
  | [] => none
  | c :: t =>
    if c = '+' || c = '-' then
      let d := takeDigits t
      if !d.isEmpty then some (c :: d, t.drop d.length)
      else if c = '-' then some ([ '-' ], t) else none
    else
      let d := takeDigits l
      if !d.isEmpty then some (d, l.drop d.length) else none

/-- The match `re.match` of the weapon-row regex
`^([^"]+)\s+(\d+"|-)?\s*([+-]?\d+|-)?\s*([+-]?\d+|-)?\s*([+-]?\d+|-)?\s*(.*?)$`
over one line (no newline inside).  The name group is greedy and
backtracks only until the following `\s+` can match, so it ends at the
last whitespace position of the quote-free prefix; each optional group is
then taken greedily in order, and the lazy tail captures the rest. -/
def weaponGroups (l : List Char) : Option WGroups :=
  match lastWsIdx (l.takeWhile (fun c => c ≠ '"')) with
  | none => none
  | some k =>
    let r0 := skipWs (l.drop k)
    let p1 := match groupRange r0 with
      | some gr => (some gr.1, gr.2)
      | none => (none, r0)
    let r1 := skipWs p1.2
    let p2 := match groupSigned r1 with
      | some gr => (some gr.1, gr.2)
      | none => (none, r1)
    let r2 := skipWs p2.2
    let p3 := match groupSigned r2 with
      | some gr => (some gr.1, gr.2)
      | none => (none, r2)
    let r3 := skipWs p3.2
    let p4 := match groupSigned r3 with
      | some gr => (some gr.1, gr.2)
      | none => (none, r3)
    some { g1 := l.take k, g2 := p1.1, g3 := p2.1, g4 := p3.1, g5 := p4.1,
           g6 := skipWs p4.2 }

/-- One emitted weapon entry (`src/parse_cards.py` lines 376-383). -/
structure WeaponRow where
  wname : List Char
  wrange : List Char
  wevasion : List Char
  wdamage : List Char
  wpen : List Char
  wabilities : List Char
deriving DecidableEq, Repr

/-- Dash normalization: `v if v and v != "-" else sentinel`. -/
def dashOr (o : Option (List Char)) (sentinel : List Char) : List Char :=
  match o with
  | some v => if v = [ '-' ] then sentinel else v
  | none => sentinel

/-- The acceptance guard of the source (line 375):
`range_val or (evasion and evasion != "-") or (damage and damage != "-")`.
Note that a captured dash range is truthy in Python. -/
def lineAccepted (g : WGroups) : Bool :=
  g.g2.isSome ||
  (match g.g3 with | some e => e ≠ [ '-' ] | none => false) ||
  (match g.g4 with | some e => e ≠ [ '-' ] | none => false)

/-- The guard claimed by the specification: at least one of range,
evasion, damage present and not the dash placeholder. -/
def specAccepted (g : WGroups) : Bool :=
  (match g.g2 with | some v => v ≠ [ '-' ] | none => false) ||
  (match g.g3 with | some v => v ≠ [ '-' ] | none => false) ||
  (match g.g4 with | some v => v ≠ [ '-' ] | none => false)

/-- Per-line body of the loop of `parse_weapons` (lines 358-384): strip,
skip empty lines, match the row regex, require a nonempty stripped name,
apply the acceptance guard, normalize dashes. -/
def parseWeaponLine (line : List Char) : Option WeaponRow :=
  let l := pyStrip line
  if l.isEmpty then none
  else
    match weaponGroups l with
    | none => none
    | some g =>
      let nm := pyStrip g.g1
      if nm.isEmpty then none
      else if lineAccepted g then
        some { wname := nm
               wrange := dashOr g.g2 (String.toList "0\"")
               wevasion := dashOr g.g3 [ '0' ]
               wdamage := dashOr g.g4 [ '0' ]
               wpen := dashOr g.g5 [ '0' ]
               wabilities := pyStrip g.g6 }
      else none

/-- The function `parse_weapons` from `src/parse_cards.py` lines 346-386, over the
lines of the weapon zone (the anchor-bounded zone extraction is performed
upstream by the section extractor). -/
def parse_weapons (zoneLines : List (List Char)) : List WeaponRow :=
  zoneLines.filterMap parseWeaponLine

/-- Python `card_text.strip().split("\n")` step two: split on newline. -/
def splitOnNl : List Char → List (List Char)
  | [] => [ [] ]
  | c :: t =>
    if c = '\n' then [] :: splitOnNl t
    else
      match splitOnNl t with
      | [] => [ [ c ] ]
      | g :: gs => (c :: g) :: gs

/-- Name detection of `parse_card_enhanced` (`src/parse_cards.py` lines
446-452): the last non-empty stripped line of the stripped page text. -/
def cardName (text : List Char) : Option (List Char) :=
  (splitOnNl (pyStrip text)).reverse.findSome? fun l =>
    let s := pyStrip l
    if s.isEmpty then none else some s

/-- Page projection of one iteration of the loop of
`parse_all_cards_enhanced` (`src/parse_cards.py` lines 576-600): page 1
is reserved for the faction ability; any other page contributes a card
exactly when `parse_card_enhanced` found a name (error records carry no
name) and the name is shorter than 50 characters, and that card's `page`
field is the source page number. -/
def pageEmit (p : Nat × List Char) : Option Nat :=
  if p.1 = 1 then none
  else
    match cardName p.2 with
    | some nm => if nm.length < 50 then some p.1 else none
    | none => none

/-- The pages of all cards emitted by `parse_all_cards_enhanced` for a
document given as `(page_number, text)` pairs. -/
def parse_all_cards_pages (pages : List (Nat × List Char)) : List Nat :=
  pages.filterMap pageEmit

/-- An ability entry as seen by the validator: the `name` and
`description` keys, each possibly missing or null. -/
structure VAbility where
  aname : Option (List Char)
  adesc : Option (List Char)
deriving DecidableEq, Repr

/-- A weapon entry as seen by the validator. -/
structure VWeapon where
  vwname : Option (List Char)
deriving DecidableEq, Repr

/-- The stat block as seen by the validator; `none` at a field models a
missing or null value. -/
structure VStatBlock where
  movement : Option Int
  dexterity : Option Int
  attack : Option Int
  protection : Option Int
  mind : Option Int
deriving DecidableEq, Repr

/-- A card record as seen by the validator
(`src/card_parser/test_validation.py`).  `none` models a missing or null
field; `stat_block = none` models a missing or empty stat block. -/
structure VCard where
  vname : Option (List Char)
  vrank : Option (List Char)
  vversion : Option (List Char)
  vactions : Option Int
  vlife : Option Int
  vbase_size : Option Int
  vducats : Option Int
  vpage : Option Int
  stat_block : Option VStatBlock
  common : List (List Char)
  unique : List VAbility
  command : List VAbility
  weapons : List VWeapon
deriving DecidableEq, Repr

/-- The faction ability as seen by the validator. -/
structure VFaction where
  fname : Option (List Char)
  fdesc : Option (List Char)
deriving DecidableEq, Repr

/-- The three inputs of `CardValidationTests`: the parsed faction data,
the extracted-text page numbers (list format), and the reference ability
dictionary. -/
structure VDataset where
  extracted : List Int
  cards : List VCard
  faction_ability : Option VFaction
  reference : List (List Char)
deriving DecidableEq, Repr

/-- A string field is missing, null, or empty after stripping. -/
def optStrMissing (o : Option (List Char)) : Bool :=
  match o with
  | none => true
  | some s => (pyStrip s).isEmpty

/-- Extracted pages above 1 (page 1 is the faction ability). -/
def vExtractedPages (d : VDataset) : List Int :=
  d.extracted.filter fun p => decide (1 < p)

/-- Pages of the parsed cards whose `page` field is present. -/
def vParsedPages (d : VDataset) : List Int :=
  d.cards.filterMap fun c => c.vpage

/-- Test 1, `test_page_mapping` (lines 44-80): one error when some
extracted page above 1 has no parsed card, one error when some parsed
page has no extracted page. -/
def test_page_mapping (d : VDataset) : List String :=
  let missing := (vExtractedPages d).filter fun p => !(vParsedPages d).contains p
  let extra := (vParsedPages d).filter fun p => !(vExtractedPages d).contains p
  (if missing.isEmpty then [] else [ "Page Mapping: pages in extracted text but not in parsed cards" ]) ++
  (if extra.isEmpty then [] else [ "Page Mapping: pages in parsed cards but not in extracted text" ])

/-- Per-card errors of test 2 (lines 87-104): the required fields
`name`, `rank`, `version`, `actions`, `life`, `base_size`, `ducats`, then
the stat block and its five fields. -/
def reqFieldErrors (c : VCard) : List String :=
  (if optStrMissing c.vname then [ "Required Fields: missing or empty field name" ] else []) ++
  (if optStrMissing c.vrank then [ "Required Fields: missing or empty field rank" ] else []) ++
  (if optStrMissing c.vversion then [ "Required Fields: missing or empty field version" ] else []) ++
  (if c.vactions.isNone then [ "Required Fields: missing or null field actions" ] else []) ++
  (if c.vlife.isNone then [ "Required Fields: missing or null field life" ] else []) ++
  (if c.vbase_size.isNone then [ "Required Fields: missing or null field base_size" ] else []) ++
  (if c.vducats.isNone then [ "Required Fields: missing or null field ducats" ] else []) ++
  (match c.stat_block with
   | none => [ "Required Fields: missing or empty stat_block" ]
   | some sb =>
     (if sb.movement.isNone then [ "Required Fields: missing or null stat_block.movement" ] else []) ++
     (if sb.dexterity.isNone then [ "Required Fields: missing or null stat_block.dexterity" ] else []) ++
     (if sb.attack.isNone then [ "Required Fields: missing or null stat_block.attack" ] else []) ++
     (if sb.protection.isNone then [ "Required Fields: missing or null stat_block.protection" ] else []) ++
     (if sb.mind.isNone then [ "Required Fields: missing or null stat_block.mind" ] else []))

/-- Test 2, `test_required_fields` (lines 82-106). -/
def test_required_fields (d : VDataset) : List String :=
  d.cards.flatMap reqFieldErrors

/-- Whether a list of names has a duplicate. -/
def hasDup : List (List Char) → Bool
  | [] => false
  | x :: xs => xs.contains x || hasDup xs

/-- Test 3, `test_no_duplicate_common_abilities` (lines 108-128): one
error per card that lists a common ability twice. -/
def test_no_duplicate_common_abilities (d : VDataset) : List String :=
  d.cards.flatMap fun c =>
    if hasDup c.common then [ "No Duplicate Common Abilities: duplicate common abilities" ] else []

/-- The reference matcher of test 4, `matches_reference` (lines 139-161):
direct membership, or for a reference entry split around a single
occurrence of the literal marker into prefix and suffix, the candidate
starts with the prefix, ends with the suffix, is strictly longer than
both, and the middle part is parenthesized. -/
def matchesReference (refs : List (List Char)) (a : List Char) : Bool :=
  refs.contains a ||
  refs.any fun r =>
    if containsList (String.toList "(X)") r then
      match splitAtSub? (String.toList "(X)") r with
      | some pr =>
        if containsList (String.toList "(X)") pr.2 then false
        else
          let pre := pr.1
          let suf := pr.2
          if pre.isPrefixOf a && suf.isSuffixOf a &&
              decide (pre.length + suf.length < a.length) then
            let mid := (a.drop pre.length).take (a.length - pre.length - suf.length)
            mid.head? = some '(' && mid.getLast? = some ')'
          else false
      | none => false
    else false

/-- Test 4, `test_common_abilities_in_reference` (lines 130-171). -/
def test_common_abilities_in_reference (d : VDataset) : List String :=
  d.cards.flatMap fun c =>
    c.common.flatMap fun a =>
      if matchesReference d.reference a then []
      else [ "Common Abilities Reference Check: common ability not found in reference" ]

/-- Errors for every occurrence of a name already seen (the seen-set loop
of test 5). -/
def dupNameErrors (seen : List (List Char)) : List (List Char) → List String
  | [] => []
  | x :: xs =>
    (if seen.contains x then [ "Unique Ability Names: duplicate ability name" ] else []) ++
    dupNameErrors (x :: seen) xs

/-- Test 5, `test_unique_ability_names` (lines 173-203): the names of the
unique and command abilities of one card (entries without a name key are
skipped) must be pairwise distinct. -/
def test_unique_ability_names (d : VDataset) : List String :=
  d.cards.flatMap fun c =>
    dupNameErrors [] ((c.unique.filterMap VAbility.aname) ++ (c.command.filterMap VAbility.aname))

/-- Per-ability errors of test 6. -/
def abilityComplErrors (a : VAbility) : List String :=
  (if optStrMissing a.aname then [ "Ability Completeness: missing or empty name" ] else []) ++
  (if optStrMissing a.adesc then [ "Ability Completeness: missing or empty description" ] else [])

/-- Test 6, `test_ability_completeness` (lines 205-243). -/
def test_ability_completeness (d : VDataset) : List String :=
  d.cards.flatMap fun c =>
    (c.unique.flatMap abilityComplErrors) ++ (c.command.flatMap abilityComplErrors)

/-- Test 7, `test_weapon_names` (lines 245-261). -/
def test_weapon_names (d : VDataset) : List String :=
  d.cards.flatMap fun c =>
    c.weapons.flatMap fun w =>
      if optStrMissing w.vwname then [ "Weapon Names: missing or empty weapon name" ] else []

/-- Test 8, `test_faction_ability` (lines 263-281). -/
def test_faction_ability (d : VDataset) : List String :=
  match d.faction_ability with
  | none => [ "Faction Ability: missing faction_ability" ]
  | some f =>
    (if optStrMissing f.fname then [ "Faction Ability: missing or empty name" ] else []) ++
    (if optStrMissing f.fdesc then [ "Faction Ability: missing or empty description" ] else [])

/-- The fixed battery of the eight checks, in the order of
`run_all_tests` (lines 285-294). -/
def vChecks (d : VDataset) : List (List String) :=
  [ test_page_mapping d,
    test_required_fields d,
    test_no_duplicate_common_abilities d,
    test_common_abilities_in_reference d,
    test_unique_ability_names d,
    test_ability_completeness d,
    test_weapon_names d,
    test_faction_ability d ]

/-- The runner `run_all_tests` (lines 283-317): every check runs; a check passes
when it added no error; the error list accumulates across all checks.
Returns `(passed, total, errors)`. -/
def run_all_tests (d : VDataset) : Nat × Nat × List String :=
  ((vChecks d).countP (fun e => e.isEmpty), (vChecks d).length, (vChecks d).flatten)

/-- A fully populated stat block except for a missing `mind`. -/
def witnessStatBlock : VStatBlock :=
  { movement := some 4, dexterity := some 3, attack := some 3,
    protection := some 3, mind := none }

/-- A card whose only defect is the missing `stat_block.mind`. -/
def witnessCard : VCard :=
  { vname := some (String.toList "Ada")
    vrank := some (String.toList "Leader")
    vversion := some (String.toList "2.2.0")
    vactions := some 2
    vlife := some 8
    vbase_size := some 30
    vducats := some 10
    vpage := some 2
    stat_block := some witnessStatBlock
    common := []
    unique := []
    command := []
    weapons := [] }

/-- A dataset whose only defect is the missing `stat_block.mind` of its
single card. -/
def witnessDataset : VDataset :=
  { extracted := [1, 2]
    cards := [ witnessCard ]
    faction_ability :=
      some { fname := some (String.toList "Mob Mentality")
             fdesc := some (String.toList "After an enemy activation") }
    reference := [] }

/-- C1: the claim states that segmenting the blob
`EngageExpert Grappler (2)` against the reference
`[Engage, Expert Grappler (X)]` yields `[Engage, Expert Grappler (2)]`
in that order.  It does not: the segmenter appends matches in the order
of the descending-length reference iteration, so the parametric entry is
extracted first. -/
theorem claim_C1_counterexample :
    separate_concatenated_abilities (String.toList "EngageExpert Grappler (2)")
        [ String.toList "Engage", String.toList "Expert Grappler (X)" ] ≠
      [ String.toList "Engage", String.toList "Expert Grappler (2)" ] := by
  decide

/-- C1 (amended): the segmenter extracts both abilities exactly, but in
reference-iteration order (longest base name first):
`[Expert Grappler (2), Engage]`. -/
theorem claim_C1_order :
    separate_concatenated_abilities (String.toList "EngageExpert Grappler (2)")
        [ String.toList "Engage", String.toList "Expert Grappler (X)" ] =
      [ String.toList "Expert Grappler (2)", String.toList "Engage" ] := by
  decide

/-- C2: decoding the fused digit string 2112 with both headers yields
actions 2, life 1, will 1, command 2; decoding 3013 with neither header
yields actions 3, life 13, will 0 and no command. -/
theorem claim_C2_decode :
    statDecode [2, 1, 1, 2] true true = some ⟨2, 1, 1, some 2⟩ ∧
    statDecode [3, 0, 1, 3] false false = some ⟨3, 13, 0, none⟩ := by
  exact ⟨rfl, rfl⟩

/-- C3: the claim states that for every digit string of length 2 to 6 and
every flag combination the decoder assigns the first digit to `actions`.
It does not: with the command header set and fewer than four digits,
neither branch of the source runs, so no stat field is assigned at all. -/
theorem claim_C3_counterexample :
    ¬ ∃ r : StatDecode, statDecode [2, 1] true true = some r ∧
        r.actions = [2, 1].getD 0 0 := by
  intro h
  obtain ⟨r, hr, -⟩ := h
  rw [show statDecode [2, 1] true true = none from rfl] at hr
  cases hr

/-- C3 (amended): whenever one of the two decoding branches applies
(command header with at least four digits, or no command header with at
least two digits), the decoder assigns `actions` the first digit. -/
theorem claim_C3_actions (s : List Nat) (hc hw : Bool)
    (h : (hc = true ∧ 4 ≤ s.length) ∨ (hc = false ∧ 2 ≤ s.length)) :
    (statDecode s hc hw).isSome = true ∧
    ∀ r : StatDecode, statDecode s hc hw = some r → r.actions = s.getD 0 0 := by
  rcases h with ⟨hb, hl⟩ | ⟨hb, hl⟩ <;> subst hb
  · unfold statDecode
    rw [if_pos (by simp [hl])]
    exact ⟨rfl, fun r hr => by cases hr; rfl⟩
  · unfold statDecode
    rw [if_neg (by simp), if_pos (by simp [hl])]
    exact ⟨rfl, fun r hr => by cases hr; rfl⟩

/-- C3 (witness): the second decoding branch at the concrete input 3013
with neither header. -/
theorem claim_C3_actions_witness :
    (statDecode [3, 0, 1, 3] false false).isSome = true ∧
    ∀ r : StatDecode, statDecode [3, 0, 1, 3] false false = some r →
      r.actions = [3, 0, 1, 3].getD 0 0 :=
  claim_C3_actions [3, 0, 1, 3] false false (Or.inr ⟨rfl, by decide⟩)

/-- C5: the weapon-zone row for the Poisoned Needle parses to the claimed
entry, with both dash placeholders normalized to the zero sentinel and
the negative penetration kept. -/
theorem claim_C5_weapon_row :
    parse_weapons [ String.toList "Poisoned Needle 0\" - - -1 Poisoned" ] =
      [ { wname := String.toList "Poisoned Needle"
          wrange := String.toList "0\""
          wevasion := [ '0' ]
          wdamage := [ '0' ]
          wpen := String.toList "-1"
          wabilities := String.toList "Poisoned" } ] := by
  decide

/-- C6: the claim states that a weapon entry is emitted only when at
least one of range, evasion, damage is present and not the dash
placeholder.  It is not: a captured dash range is truthy in the source
guard, so the line `Knife - - - -` is emitted although range is the dash
and evasion and damage are absent. -/
theorem claim_C6_counterexample :
    (parseWeaponLine (String.toList "Knife - - - -")).isSome = true ∧
    (weaponGroups (pyStrip (String.toList "Knife - - - -"))).map specAccepted =
      some false := by
  exact ⟨rfl, rfl⟩

/-- C7: the claim states that the emitted pages are exactly the source
pages minus page 1 for every document.  They are not: a page whose text
yields no name line is silently dropped. -/
theorem claim_C7_counterexample :
    2 ∈ ([ (2, ([] : List Char)) ].map Prod.fst) ∧ 2 ≠ 1 ∧
    2 ∉ parse_all_cards_pages [ (2, ([] : List Char)) ] := by
  refine ⟨by decide, by decide, by decide⟩

/-- C9: the per-page segmentation is a pure function of the page text and
the length-sorted reference: any two reference lists with the same
descending-length stable sort produce identical segmenter output, so the
result depends on nothing beyond the input text and the explicit sort
(running it twice on identical input is the special case of equal
lists). -/
theorem claim_C9_determinism (item : List Char) (r1 r2 : List (List Char))
    (h : sortLenDesc r1 = sortLenDesc r2) :
    separate_concatenated_abilities item r1 = separate_concatenated_abilities item r2 := by
  unfold separate_concatenated_abilities segFold
  rw [h]

/-- C9 (witness): two differently ordered reference lists with the same
length sort segment the blob identically. -/
theorem claim_C9_determinism_witness :
    separate_concatenated_abilities (String.toList "EngageNet")
        [ String.toList "Net", String.toList "Engage" ] =
      separate_concatenated_abilities (String.toList "EngageNet")
        [ String.toList "Engage", String.toList "Net" ] :=
  claim_C9_determinism (String.toList "EngageNet") _ _ (by decide)

/-- C6 (amended): a weapon entry is emitted for a line exactly under the
guard of the source: the row regex matches, the stripped name is
nonempty, and range was captured (possibly as a dash) or evasion or
damage was captured as a non-dash value. -/
theorem claim_C6_guard (line : List Char) (row : WeaponRow)
    (h : parseWeaponLine line = some row) :
    ∃ g, weaponGroups (pyStrip line) = some g ∧ lineAccepted g = true ∧
      pyStrip g.g1 ≠ [] := by
  simp only [parseWeaponLine] at h
  split at h
  · cases h
  · split at h
    · cases h
    · next g hg =>
      split at h
      · cases h
      · next hnm =>
        split at h
        · next hacc =>
          refine ⟨g, hg, hacc, ?_⟩
          intro he
          rw [he] at hnm
          simp at hnm
        · cases h

/-- C6 (witness): the guard at the Knife line, whose entry is emitted
through the captured dash range. -/
theorem claim_C6_guard_witness :
    ∃ g, weaponGroups (pyStrip (String.toList "Knife - - - -")) = some g ∧
      lineAccepted g = true ∧ pyStrip g.g1 ≠ [] :=
  claim_C6_guard (String.toList "Knife - - - -")
    { wname := String.toList "Knife - - -"
      wrange := String.toList "0\""
      wevasion := [ '0' ]
      wdamage := [ '0' ]
      wpen := [ '0' ]
      wabilities := [] } (by decide)

/-- Characterization of the page projection of one pipeline iteration. -/
theorem pageEmit_eq_some (p : Nat × List Char) (n : Nat) :
    pageEmit p = some n ↔
      p.1 = n ∧ p.1 ≠ 1 ∧ ∃ nm, cardName p.2 = some nm ∧ nm.length < 50 := by
  unfold pageEmit
  constructor
  · intro h
    split at h
    · cases h
    · next h1 =>
      split at h
      · next nm hnm =>
        split at h
        · next hlt =>
          cases h
          exact ⟨rfl, h1, nm, hnm, hlt⟩
        · cases h
      · cases h
  · rintro ⟨h1, h2, nm, hnm, hlt⟩
    rw [if_neg h2, hnm]
    simp [hlt, h1]

/-- C7 (amended): a page number appears among the emitted cards exactly
when some source page carries it, it is not page 1, and its text yields a
card name shorter than 50 characters; pages failing name detection are
dropped, and no page is invented. -/
theorem claim_C7_pages (pages : List (Nat × List Char)) (n : Nat) :
    n ∈ parse_all_cards_pages pages ↔
      ∃ t, (n, t) ∈ pages ∧ n ≠ 1 ∧
        ∃ nm, cardName t = some nm ∧ nm.length < 50 := by
  unfold parse_all_cards_pages
  rw [List.mem_filterMap]
  constructor
  · rintro ⟨a, hmem, hp⟩
    obtain ⟨h1, h2, nm, hnm, hlt⟩ := (pageEmit_eq_some a n).mp hp
    subst h1
    exact ⟨a.2, by rwa [Prod.mk.eta], h2, nm, hnm, hlt⟩
  · rintro ⟨t, hmem, h1, nm, hnm, hlt⟩
    exact ⟨(n, t), hmem, (pageEmit_eq_some (n, t) n).mpr ⟨rfl, h1, nm, hnm, hlt⟩⟩

/-- C7 (witness): a one-page document whose page 3 text is a single name
line contributes exactly that page. -/
theorem claim_C7_pages_witness :
    3 ∈ parse_all_cards_pages [ (3, String.toList "Dog") ] :=
  (claim_C7_pages [ (3, String.toList "Dog") ] 3).mpr
    ⟨String.toList "Dog", by decide, by decide, String.toList "Dog", by decide, by decide⟩

/-- C4: the matcher applied to a parametric candidate returns the input
unchanged (the payload is preserved), and a candidate firing no rule (not
an exact reference entry, no parametric-pattern match, and neither equal
to nor containing any fuzzy base name) yields the empty string — the
function is total into strings, never a null value. -/
theorem claim_C4_matcher :
    normalize_ability_name (String.toList "Companion ( End of Days )")
        [ String.toList "Companion (X)" ] =
      String.toList "Companion ( End of Days )" ∧
    ∀ (a : List Char) (known : List (List Char)),
      known.contains (pyStrip a) = false →
      known.all (fun k => !(containsList (String.toList "(X)") k &&
        rmatch (paramPattern k) (pyStrip a))) = true →
      known.all (fun k => !(fuzzyBase k == pyStrip a) &&
        !containsList (fuzzyBase k) (pyStrip a)) = true →
      normalize_ability_name a known = [] := by
  constructor
  · decide
  · intro a known h1 h2 h3
    have hany : known.any (fun k => containsList (String.toList "(X)") k &&
        rmatch (paramPattern k) (pyStrip a)) = false := by
      rw [List.all_eq_true] at h2
      cases hA : known.any (fun k => containsList (String.toList "(X)") k &&
          rmatch (paramPattern k) (pyStrip a))
      · rfl
      · exfalso
        rw [List.any_eq_true] at hA
        obtain ⟨k, hk, hpk⟩ := hA
        have hk2 := h2 k hk
        rw [hpk] at hk2
        simp at hk2
    have hf : fuzzyRule known (pyStrip a) = none := by
      unfold fuzzyRule
      rw [List.findSome?_eq_none_iff]
      intro k hk
      rw [List.all_eq_true] at h3
      have h3k := h3 k hk
      simp only [Bool.and_eq_true, Bool.not_eq_true'] at h3k
      have hne : pyStrip a ≠ fuzzyBase k := by
        intro he
        rw [he] at h3k
        simp at h3k
      simp only [if_neg hne, h3k.2]
      simp
    simp only [normalize_ability_name, h1, hany, hf]
    simp

/-- C4 (witness): a candidate matching nothing in the reference yields
the empty string. -/
theorem claim_C4_matcher_witness :
    normalize_ability_name (String.toList "Unknown Thing")
      [ String.toList "Companion (X)" ] = [] :=
  claim_C4_matcher.2 (String.toList "Unknown Thing")
    [ String.toList "Companion (X)" ] (by decide) (by decide) (by decide)

/-- C8: on a dataset whose only defect is a missing (or null)
`stat_block.mind` on one card — every other check accumulates no error —
exactly the required-fields check fails: the engine reports 7 of 8
passed, and the accumulated error list is exactly the required-fields
errors, every check having run. -/
theorem claim_C8_validation (d : VDataset)
    (h1 : test_page_mapping d = [])
    (h3 : test_no_duplicate_common_abilities d = [])
    (h4 : test_common_abilities_in_reference d = [])
    (h5 : test_unique_ability_names d = [])
    (h6 : test_ability_completeness d = [])
    (h7 : test_weapon_names d = [])
    (h8 : test_faction_ability d = [])
    (hm : ∃ c ∈ d.cards, ∃ sb, c.stat_block = some sb ∧ sb.mind = none) :
    (run_all_tests d).1 = 7 ∧ (run_all_tests d).2.1 = 8 ∧
      test_required_fields d ≠ [] ∧
      (run_all_tests d).2.2 = test_required_fields d := by
  obtain ⟨c, hc, sb, hsb, hmind⟩ := hm
  have hmem : "Required Fields: missing or null stat_block.mind" ∈ reqFieldErrors c := by
    unfold reqFieldErrors
    rw [hsb]
    simp [hmind]
  have hne : test_required_fields d ≠ [] := by
    intro he
    have hmm : "Required Fields: missing or null stat_block.mind" ∈
        test_required_fields d :=
      List.mem_flatMap.mpr ⟨c, hc, hmem⟩
    rw [he] at hmm
    cases hmm
  have hfalse : (test_required_fields d).isEmpty = false := by
    cases hE : (test_required_fields d).isEmpty
    · rfl
    · exact absurd (List.isEmpty_iff.mp hE) hne
  refine ⟨?_, rfl, hne, ?_⟩
  · unfold run_all_tests vChecks
    rw [h1, h3, h4, h5, h6, h7, h8]
    simp [List.countP_cons, hfalse]
  · unfold run_all_tests vChecks
    rw [h1, h3, h4, h5, h6, h7, h8]
    simp

/-- C8 (witness): the engine at the concrete dataset whose single card
misses only `stat_block.mind`. -/
theorem claim_C8_validation_witness :
    (run_all_tests witnessDataset).1 = 7 ∧ (run_all_tests witnessDataset).2.1 = 8 ∧
      test_required_fields witnessDataset ≠ [] ∧
      (run_all_tests witnessDataset).2.2 = test_required_fields witnessDataset :=
  claim_C8_validation witnessDataset (by decide) (by decide) (by decide) (by decide)
    (by decide) (by decide) (by decide)
    ⟨witnessCard, by decide, witnessStatBlock, rfl, rfl⟩


/-- Elimination form for a true Boolean conjunction. -/
theorem andE {a b : Bool} (h : (a && b) = true) : a = true ∧ b = true := by
  simp at h
  exact h

/-- Introduction form for a true Boolean conjunction. -/
theorem andI {a b : Bool} (h1 : a = true) (h2 : b = true) : (a && b) = true := by
  simp [h1, h2]

/-- Dropping leading whitespace leaves no leading whitespace. -/
theorem noLead_dropWhile (l : List Char) :
    noLeadWS (l.dropWhile pyIsSpace) = true := by
  induction l with
  | nil => rfl
  | cons c t ih =>
    rw [List.dropWhile_cons]
    cases h : pyIsSpace c
    · simp [noLeadWS, h]
    · simpa using ih

/-- A prefix of a list with no leading whitespace has no leading
whitespace. -/
theorem noLead_of_isPrefix {x l : List Char} (h : x <+: l)
    (hl : noLeadWS l = true) : noLeadWS x = true := by
  obtain ⟨t, rfl⟩ := h
  cases x with
  | nil => rfl
  | cons c x' =>
    rw [List.cons_append] at hl
    simpa [noLeadWS] using hl

/-- The stripped list is a prefix of the list with leading whitespace
dropped. -/
theorem pyStrip_isPrefix (l : List Char) :
    pyStrip l <+: l.dropWhile pyIsSpace := by
  unfold pyStrip
  have h := List.reverse_prefix.mpr
    (List.dropWhile_suffix (l := (l.dropWhile pyIsSpace).reverse) pyIsSpace)
  rw [List.reverse_reverse] at h
  exact h

/-- Stripping leaves no leading whitespace. -/
theorem noLead_pyStrip (l : List Char) : noLeadWS (pyStrip l) = true :=
  noLead_of_isPrefix (pyStrip_isPrefix l) (noLead_dropWhile l)

/-- Stripping leaves no trailing whitespace. -/
theorem noTrail_pyStrip (l : List Char) : noTrailWS (pyStrip l) = true := by
  unfold noTrailWS pyStrip
  rw [List.reverse_reverse]
  exact noLead_dropWhile _

/-- The tail of a list with no consecutive whitespace has no consecutive
whitespace. -/
theorem noDouble_tail {c : Char} {l : List Char}
    (h : noDoubleWS (c :: l) = true) : noDoubleWS l = true := by
  cases l with
  | nil => rfl
  | cons d r => exact (andE h).2

/-- The head pair of a list with no consecutive whitespace is not a
whitespace pair. -/
theorem noDouble_head {c d : Char} {r : List Char}
    (h : noDoubleWS (c :: d :: r) = true) :
    (pyIsSpace c && pyIsSpace d) = false := by
  have h1 := (andE h).1
  cases hcd : (pyIsSpace c && pyIsSpace d)
  · rfl
  · rw [hcd] at h1
    simp at h1

/-- The property of having no consecutive whitespace passes to suffixes. -/
theorem noDouble_append_right {p x : List Char}
    (h : noDoubleWS (p ++ x) = true) : noDoubleWS x = true := by
  induction p with
  | nil => exact h
  | cons c p' ih =>
    rw [List.cons_append] at h
    exact ih (noDouble_tail h)

/-- The property of having no consecutive whitespace passes to prefixes. -/
theorem noDouble_append_left {x t : List Char}
    (h : noDoubleWS (x ++ t) = true) : noDoubleWS x = true := by
  induction x with
  | nil => rfl
  | cons c x' ih =>
    cases x' with
    | nil => rfl
    | cons d x'' =>
      rw [List.cons_append] at h
      have hpair := andE h
      exact andI hpair.1 (ih hpair.2)

/-- Canonical whitespace passes to any subset. -/
theorem wsCanon_of_subset {x l : List Char} (h : ∀ c, c ∈ x → c ∈ l)
    (hl : wsCanon l = true) : wsCanon x = true := by
  simp only [wsCanon, List.all_eq_true] at hl ⊢
  intro c hc
  exact hl c (h c hc)

/-- Every character of the stripped list occurs in the list. -/
theorem pyStrip_subset (l : List Char) : ∀ c, c ∈ pyStrip l → c ∈ l := by
  intro c hc
  exact (List.dropWhile_suffix pyIsSpace).subset ((pyStrip_isPrefix l).subset hc)

/-- Collapsing a list with a non-whitespace head keeps that head. -/
theorem collapse_head_nonWs {d : Char} (rest : List Char)
    (h : pyIsSpace d = false) : ∃ t, collapseWS (d :: rest) = d :: t := by
  cases rest with
  | nil => exact ⟨[], by simp [collapseWS, h]⟩
  | cons e r => exact ⟨collapseWS (e :: r), by simp [collapseWS, h]⟩

/-- Prepending a non-whitespace character preserves the absence of
consecutive whitespace. -/
theorem noDouble_cons_of_nonWs {c : Char} {l : List Char}
    (hc : pyIsSpace c = false) (hl : noDoubleWS l = true) :
    noDoubleWS (c :: l) = true := by
  cases l with
  | nil => rfl
  | cons d r => exact andI (by simp [hc]) hl

/-- The collapsed list has no consecutive whitespace and only plain
spaces as whitespace. -/
theorem collapse_props (l : List Char) :
    noDoubleWS (collapseWS l) = true ∧ wsCanon (collapseWS l) = true := by
  induction l with
  | nil => exact ⟨rfl, rfl⟩
  | cons c t ih =>
    cases t with
    | nil =>
      cases h : pyIsSpace c
      · rw [show collapseWS [ c ] = [ c ] from by simp [collapseWS, h]]
        exact ⟨rfl, by simp [wsCanon, h]⟩
      · rw [show collapseWS [ c ] = [ ' ' ] from by simp [collapseWS, h]]
        exact ⟨rfl, by decide⟩
    | cons d r =>
      cases hc : pyIsSpace c
      · rw [show collapseWS (c :: d :: r) = c :: collapseWS (d :: r) from by
          simp [collapseWS, hc]]
        constructor
        · exact noDouble_cons_of_nonWs hc ih.1
        · simp only [wsCanon, List.all_cons]
          refine andI (by simp [hc]) ?_
          have h2 := ih.2
          simpa [wsCanon] using h2
      · cases hd : pyIsSpace d
        · rw [show collapseWS (c :: d :: r) = ' ' :: collapseWS (d :: r) from by
            simp [collapseWS, hc, hd]]
          obtain ⟨t', ht'⟩ := collapse_head_nonWs r hd
          constructor
          · rw [ht']
            refine andI (by simp [hd]) ?_
            rw [← ht']
            exact ih.1
          · simp only [wsCanon, List.all_cons]
            refine andI (by decide) ?_
            have h2 := ih.2
            simpa [wsCanon] using h2
        · rw [show collapseWS (c :: d :: r) = collapseWS (d :: r) from by
            simp [collapseWS, hc, hd]]
          exact ih

/-- A whitespace head of a canonical list is the plain space. -/
theorem canon_head {c : Char} {t : List Char} (h : wsCanon (c :: t) = true)
    (hc : pyIsSpace c = true) : c = ' ' := by
  simp only [wsCanon, List.all_cons] at h
  have h1 := (andE h).1
  rw [hc] at h1
  simpa using h1

/-- The canonical property passes to the tail. -/
theorem canon_tail {c : Char} {t : List Char} (h : wsCanon (c :: t) = true) :
    wsCanon t = true := by
  simp only [wsCanon, List.all_cons] at h
  have h2 := (andE h).2
  simpa [wsCanon] using h2

/-- Collapsing is the identity on lists with no consecutive whitespace
whose whitespace is already plain spaces. -/
theorem collapse_id {l : List Char} (h1 : noDoubleWS l = true)
    (h2 : wsCanon l = true) : collapseWS l = l := by
  induction l with
  | nil => rfl
  | cons c t ih =>
    cases t with
    | nil =>
      cases h : pyIsSpace c
      · simp [collapseWS, h]
      · have hceq : c = ' ' := canon_head h2 h
        simp [collapseWS, h, hceq]
    | cons d r =>
      cases hc : pyIsSpace c
      · rw [show collapseWS (c :: d :: r) = c :: collapseWS (d :: r) from by
          simp [collapseWS, hc]]
        rw [ih (noDouble_tail h1) (canon_tail h2)]
      · have hd : pyIsSpace d = false := by
          have hp := noDouble_head h1
          rw [hc] at hp
          simpa using hp
        have hceq : c = ' ' := canon_head h2 hc
        rw [show collapseWS (c :: d :: r) = ' ' :: collapseWS (d :: r) from by
          simp [collapseWS, hc, hd]]
        rw [ih (noDouble_tail h1) (canon_tail h2), hceq]

/-- Dropping leading whitespace is the identity when there is none. -/
theorem dropWhile_id_of_noLead {l : List Char} (h : noLeadWS l = true) :
    l.dropWhile pyIsSpace = l := by
  cases l with
  | nil => rfl
  | cons c t =>
    have hc : pyIsSpace c = false := by simpa [noLeadWS] using h
    rw [List.dropWhile_cons, if_neg (by simp [hc])]

/-- Stripping is the identity on lists with neither leading nor trailing
whitespace. -/
theorem pyStrip_id {l : List Char} (h1 : noLeadWS l = true)
    (h2 : noTrailWS l = true) : pyStrip l = l := by
  unfold noTrailWS at h2
  unfold pyStrip
  rw [dropWhile_id_of_noLead h1, dropWhile_id_of_noLead h2, List.reverse_reverse]

/-- Stripping preserves the absence of consecutive whitespace. -/
theorem noDouble_pyStrip (l : List Char) (h : noDoubleWS l = true) :
    noDoubleWS (pyStrip l) = true := by
  have hm : noDoubleWS (l.dropWhile pyIsSpace) = true := by
    obtain ⟨p, hp⟩ := List.dropWhile_suffix pyIsSpace (l := l)
    have hpl : noDoubleWS (p ++ l.dropWhile pyIsSpace) = true := by
      rw [hp]
      exact h
    exact noDouble_append_right hpl
  obtain ⟨t, ht⟩ := pyStrip_isPrefix l
  have hxt : noDoubleWS (pyStrip l ++ t) = true := by
    rw [ht]
    exact hm
  exact noDouble_append_left hxt

/-- C10: description normalization is idempotent, and its output has no
leading whitespace, no trailing whitespace, and no two consecutive
whitespace characters. -/
theorem claim_C10_normalize_idem (s : List Char) :
    normalize_description (normalize_description s) = normalize_description s ∧
    noLeadWS (normalize_description s) = true ∧
    noTrailWS (normalize_description s) = true ∧
    noDoubleWS (normalize_description s) = true := by
  have hcol := collapse_props s
  have hD : noDoubleWS (pyStrip (collapseWS s)) = true :=
    noDouble_pyStrip _ hcol.1
  have hC : wsCanon (pyStrip (collapseWS s)) = true :=
    wsCanon_of_subset (pyStrip_subset (collapseWS s)) hcol.2
  have hL : noLeadWS (pyStrip (collapseWS s)) = true := noLead_pyStrip _
  have hT : noTrailWS (pyStrip (collapseWS s)) = true := noTrail_pyStrip _
  refine ⟨?_, hL, hT, hD⟩
  show pyStrip (collapseWS (pyStrip (collapseWS s))) = pyStrip (collapseWS s)
  rw [collapse_id hD hC, pyStrip_id hL hT]
